import Mathlib

/- Shallow embedding of the cement repository.

   Embedded source:
   - src/cement/ext/ext_argparse.py : command label cleaning, the expose
     decorator, controller resolution (_setup_controllers), parser assembly
     (_setup_parsers), command-option computation, command collection
     (_collect_commands) and dispatch routing (_dispatch).
   - The hook registry (cement2/core/hook.py) is not under src/; only its test
     file src/src/cement2/tests/core/hook_tests.py is.  Its operations are
     modelled from the specification, with the behaviour that the tests pin
     down taken as authoritative where the two disagree.

   Python dictionaries are modelled as association lists with unique keys,
   Python callables as Lean functions from the positional arguments to the
   returned value, and raised exceptions as Except.error results.  The two
   while loops of the source that are not structurally terminating are given
   an explicit fuel parameter; a none result means the fuel was exhausted
   with work remaining. -/

namespace Cement

/-- Embeds _clean_command_label (ext_argparse.py line 12):
    re.sub replaces every underscore of the label by a hyphen. -/
def cleanCommandLabel (s : String) : String :=
  ⟨s.data.map (fun c => if c = '_' then '-' else c)⟩

/-- Embeds _clean_command_func (ext_argparse.py line 15):
    re.sub replaces every hyphen of the function name by an underscore. -/
def cleanCommandFunc (s : String) : String :=
  ⟨s.data.map (fun c => if c = '-' then '_' else c)⟩

/-- Python dict lookup on an association list. -/
def dictLookup {α : Type} : List (String × α) → String → Option α
  | [], _ => none
  | (k, v) :: rest, key => if k = key then some v else dictLookup rest key

/-- Python dict assignment on an association list: replaces the binding in
    place when the key exists, appends it otherwise. -/
def dictSet {α : Type} : List (String × α) → String → α → List (String × α)
  | [], key, v => [(key, v)]
  | (k, v0) :: rest, key, v =>
    if k = key then (key, v) :: rest else (k, v0) :: dictSet rest key v

/-- Python dict key deletion: del d[key]. -/
def dictDel {α : Type} (d : List (String × α)) (key : String) : List (String × α) :=
  d.filter (fun kv => kv.1 != key)

/- ## Hook registry (modelled from the spec) -/

/-- One subscriber of a hook: its weight, the name of the callable and the
    callable itself, abstracted as a function from the positional arguments
    that run passes along to the returned value. -/
structure HookEntry where
  weight : Int
  funcName : String
  func : List String → String

/-- Modelled from the spec: backend.hooks, the process-wide map from hook name
    to the ordered subscriber list (cement2/core/hook.py and
    cement2/core/backend.py are not under src/). -/
abbrev Hooks : Type := List (String × List HookEntry)

/-- Modelled from the spec: hook.define(name) registers a new named hook with
    an empty subscriber list and fails when the name is already defined; the
    exact error message is fixed by test_define_again in
    src/src/cement2/tests/core/hook_tests.py line 20. -/
def hookDefine (hooks : Hooks) (name : String) : Except String Hooks :=
  if (dictLookup hooks name).isSome then
    Except.error ("Hook name \x27" ++ name ++ "\x27 already defined!")
  else
    Except.ok (dictSet hooks name [])

/-- Modelled from the spec and the tests: hook.register(name, weight) appends
    the callable together with its weight to the subscriber list of name.
    test_run_bad_hook (hook_tests.py lines 31 and 50) registers under the
    never-defined name some_bogus_hook and still requires run on that name to
    fail, so a registration under an undefined name is silently ignored and
    no subscriber list is created on demand. -/
def hookRegister (hooks : Hooks) (name : String) (weight : Int)
    (funcName : String) (f : List String → String) : Hooks :=
  match dictLookup hooks name with
  | none => hooks
  | some es => dictSet hooks name (es ++ [⟨weight, funcName, f⟩])

/-- Ascending-weight comparison used to order a subscriber list before
    execution (the sort key of run). -/
def wle (a b : HookEntry) : Prop := a.weight ≤ b.weight

instance : DecidableRel wle :=
  fun a b => inferInstanceAs (Decidable (a.weight ≤ b.weight))

/-- The stable ascending-weight sort that run applies to the subscriber list:
    insertion sort is stable exactly like the sort of the reference runtime,
    entries of equal weight keep their registration order. -/
def sortEntries (es : List HookEntry) : List HookEntry :=
  es.insertionSort wle

/-- Modelled from the spec: hook.run(name, args) fails when name was never
    defined and otherwise yields the return value of every subscriber in
    ascending-weight order, each invoked with the same arguments.  The lazy
    one-shot sequence of the source is modelled by the fully materialised
    list of results in yield order. -/
def hookRun (hooks : Hooks) (name : String) (args : List String) :
    Except String (List String) :=
  match dictLookup hooks name with
  | none => Except.error ("Hook name \x27" ++ name ++ "\x27 is not defined!")
  | some es => Except.ok ((sortEntries es).map (fun e => e.func args))

/- ## Controller metadata and resolution (_setup_controllers) -/

/-- The slice of ArgparseController.Meta that controller resolution, parser
    assembly, option computation and dispatch routing consult
    (ext_argparse.py lines 159-248).  stacked_on is None or a label;
    stacked_type is the string embedded or nested; the Meta default for the
    base controller is stacked_on equal to its own label base with
    stacked_type embedded, which is how the source spells the root sentinel
    that the spec calls stacked_on none. -/
structure ControllerMeta where
  label : String
  aliases : List String
  stacked_on : Option String
  stacked_type : String
  hide : Bool
  default_func : String
deriving DecidableEq

/-- Embeds the first inner for loop of _setup_controllers (lines 294-302):
    one left-to-right scan of the unresolved list collecting the controllers
    stacked on parent.  Matching controllers are appended to children in
    encounter order; embedded ones are appended to the resolved-children
    accumulator while nested ones are inserted at its front; the remainder
    keeps its order.  Returns (children, resolved children, remainder). -/
def resolveScan (parent : String) :
    List ControllerMeta → List ControllerMeta → List ControllerMeta →
      List ControllerMeta × List ControllerMeta × List ControllerMeta
  | [], children, rcc => (children, rcc, [])
  | c :: rest, children, rcc =>
    if c.stacked_on = some parent then
      resolveScan parent rest (children ++ [c])
        (if c.stacked_type = "embedded" then rcc ++ [c] else c :: rcc)
    else
      let r := resolveScan parent rest children rcc
      (r.1, r.2.1, c :: r.2.2)

/-- Embeds the second inner for loop of _setup_controllers (lines 308-319):
    for every just-found child in order, drain the controllers stacked on it,
    accumulating into the same resolved-children list (embedded appended,
    nested prepended).  Returns (resolved children, remainder). -/
def resolveChildScan :
    List ControllerMeta → List ControllerMeta → List ControllerMeta →
      List ControllerMeta × List ControllerMeta
  | [], unresolved, rcc => (rcc, unresolved)
  | ch :: chs, unresolved, rcc =>
    let r := resolveScan ch.label unresolved [] rcc
    resolveChildScan chs r.2.2 r.2.1

/-- Embeds the while loop of _setup_controllers (lines 290-325) with explicit
    fuel.  Each iteration runs the two scans, extends the resolved list and,
    when controllers remain, restarts with the label of the first remaining
    controller as the new parent.  none means the fuel ran out with
    controllers still unresolved: the source loop would still be running. -/
def resolveLoop :
    Nat → String → List ControllerMeta → List ControllerMeta →
      Option (List ControllerMeta)
  | _, _, resolved, [] => some resolved
  | 0, _, _, _ :: _ => none
  | fuel + 1, parent, resolved, c :: rest =>
    let r1 := resolveScan parent (c :: rest) [] []
    let r2 := resolveChildScan r1.1 r1.2.2 []
    let resolved2 := (resolved ++ r1.2.1) ++ r2.1
    match r2.2 with
    | [] => some resolved2
    | c2 :: rest2 => resolveLoop fuel c2.label resolved2 (c2 :: rest2)

/-- Embeds ArgparseController._setup_controllers (lines 267-328): the
    resolved list is seeded with the base controller and the loop starts with
    the base label as parent.  registered is the list of the other registered
    controllers in handler.list order, that is in registration order. -/
def setupControllers (fuel : Nat) (base : ControllerMeta)
    (registered : List ControllerMeta) : Option (List ControllerMeta) :=
  resolveLoop fuel base.label [base] registered

/- ## Parser assembly (_setup_parsers) -/

/-- Identity of a parser object: the root parser of the application
    (self.app.args) or the sub-parser created by an add_parser call for the
    nested controller carrying the given label. -/
inductive ParserRef
  | appArgs : ParserRef
  | subParser (label : String) : ParserRef
deriving DecidableEq

/-- Identity of a sub-parser group (a namespace returned by add_subparsers),
    named by the label of the controller on whose parser it was created. -/
inductive GroupRef
  | subparsersOn (label : String) : GroupRef
deriving DecidableEq

/-- The state that _setup_parsers builds: the two dicts
    self._sub_parser_parents and self._sub_parsers, plus the record of the
    add_parser calls made for nested controllers (each such call creates a
    fresh parser node; embedded controllers never appear in it). -/
structure ParserState where
  parents : List (String × GroupRef)
  parsers : List (String × ParserRef)
  created : List String
deriving DecidableEq

/-- Embeds one iteration of the inner for loop of _setup_parsers (lines
    416-449) for a single controller.  none means the controller was skipped
    because its stacked_on target is not yet among the parent namespaces (a
    stacked_on of None is never a key).  A nested controller gets a fresh
    parser and its own sub-parser group; an embedded controller aliases both
    entries of the controller it is stacked on; any other stacked_type
    assigns nothing but still counts as processed, as in the source. -/
def processOne (st : ParserState) (c : ControllerMeta) : Option ParserState :=
  match c.stacked_on with
  | none => none
  | some so =>
    match dictLookup st.parents so with
    | none => none
    | some parentGroup =>
      if c.stacked_type = "nested" then
        some ⟨dictSet st.parents c.label (GroupRef.subparsersOn c.label),
              dictSet st.parsers c.label (ParserRef.subParser c.label),
              st.created ++ [c.label]⟩
      else if c.stacked_type = "embedded" then
        match dictLookup st.parsers so with
        | none => none
        | some p =>
          some ⟨dictSet st.parents c.label parentGroup,
                dictSet st.parsers c.label p,
                st.created⟩
      else some st

/-- One full pass of the inner for loop over self._controllers: every
    successfully processed controller is removed from the pending list by
    label (labels are unique across the registered set). -/
def parserPass :
    ParserState → List ControllerMeta → List ControllerMeta →
      ParserState × List ControllerMeta
  | st, tmp, [] => (st, tmp)
  | st, tmp, c :: cs =>
    match processOne st c with
    | none => parserPass st tmp cs
    | some st2 => parserPass st2 (tmp.filter (fun t => t.label != c.label)) cs

/-- Embeds the while loop of _setup_parsers (lines 415-449) with explicit
    fuel: repeat full passes until the pending list empties.  none means the
    fuel ran out with controllers still pending: the source loop would still
    be running. -/
def parserLoop :
    Nat → List ControllerMeta → ParserState → List ControllerMeta →
      Option ParserState
  | _, _, st, [] => some st
  | 0, _, _, _ :: _ => none
  | fuel + 1, all, st, t :: ts =>
    let r := parserPass st (t :: ts) all
    parserLoop fuel all r.1 r.2

/-- The state after lines 390-402: parsers gets base mapped to the root
    parser self.app.args, and parents gets base mapped to the sub-parser
    group created on it. -/
def initialParserState : ParserState :=
  ⟨[("base", GroupRef.subparsersOn "base")],
   [("base", ParserRef.appArgs)],
   []⟩

/-- Embeds ArgparseController._setup_parsers (lines 384-449) run by the base
    controller on the resolved controller list (which has base at its head):
    after the base bootstrap it returns early when base is the only
    registered controller, and otherwise runs the fixed-point loop. -/
def setupParsers (fuel : Nat) (resolved : List ControllerMeta) :
    Option ParserState :=
  if resolved.length ≤ 1 then some initialParserState
  else parserLoop fuel resolved initialParserState resolved

/- ## Command catalog: expose and _collect_commands -/

/-- One declared extra argument tuple of a command: the positional flag list
    and the keyword dict, both opaque here. -/
abbrev ArgTuple : Type := List String × List (String × String)

/-- An option dictionary (parser_options and friends), keyed by option name
    with opaque values. -/
abbrev OptDict : Type := List (String × String)

/-- The __cement_meta__ dict that expose.__call__ attaches to a decorated
    function (ext_argparse.py lines 108-118).  controller is the
    back-reference filled in later by _collect_commands, identified here by
    the owning controller label. -/
structure ExposeMeta where
  label : String
  func_name : String
  exposed : Bool
  hide : Bool
  arguments : List ArgTuple
  parser_options : OptDict
  controller : Option String
deriving DecidableEq

/-- The keyword arguments of expose.__init__ (line 101). -/
structure ExposeArgs where
  hide : Bool
  arguments : List ArgTuple
  parser_options : OptDict
deriving DecidableEq

/-- The defaults of expose.__init__: hide=False, arguments=[], and no extra
    keyword options. -/
def exposeDefaults : ExposeArgs := ⟨false, [], []⟩

/-- Embeds expose.__call__ (lines 108-118) applied to a function with the
    given identifier: label is the cleaned identifier, func_name the original
    identifier, exposed is set, the decorator arguments are copied and the
    controller back-reference starts as None. -/
def exposeCall (a : ExposeArgs) (funcName : String) : ExposeMeta :=
  ⟨cleanCommandLabel funcName, funcName, true, a.hide, a.arguments,
   a.parser_options, none⟩

/-- A class member of a controller: its attribute name and, when the member
    is an expose-decorated function, its __cement_meta__ dict. -/
structure Member where
  name : String
  cementMeta : Option ExposeMeta
deriving DecidableEq

/-- A controller class: its label and its members in declaration order. -/
structure Controller where
  label : String
  members : List Member
deriving DecidableEq

/-- Embeds member.startswith(underscore) from line 559: true when the
    attribute name begins with the reserved private prefix character. -/
def startsWithUnderscore (n : String) : Bool :=
  match n.data with
  | [] => false
  | c :: _ => c = '_'

/-- Lexicographic byte-order comparison of attribute names, the order in
    which the Python builtin dir enumerates class members (dir returns the
    attribute names sorted alphabetically). -/
def strLeAux : List Char → List Char → Bool
  | [], _ => true
  | _ :: _, [] => false
  | a :: as, b :: bs =>
    if a < b then true
    else if b < a then false
    else strLeAux as bs

/-- The name order of dir as a comparison on strings. -/
def strLe (a b : String) : Prop := strLeAux a.data b.data = true

instance : DecidableRel strLe :=
  fun a b => inferInstanceAs (Decidable (strLeAux a.data b.data = true))

/-- Embeds dir(self.__class__) from line 558: the member names sorted
    alphabetically. -/
def dirNames (c : Controller) : List String :=
  (c.members.map Member.name).insertionSort strLe

/-- Embeds getattr by attribute name: the first member carrying the name. -/
def getMember (c : Controller) (n : String) : Option Member :=
  c.members.find? (fun m => m.name == n)

/-- Embeds ArgparseController._collect_commands (lines 552-566): walk
    dir(self.__class__); skip names starting with the private prefix; for
    every member whose value carries __cement_meta__, set the controller
    back-reference on the meta dict and append it. -/
def collectCommands (c : Controller) : List ExposeMeta :=
  (dirNames c).filterMap (fun n =>
    if startsWithUnderscore n then none
    else
      match getMember c n with
      | none => none
      | some m =>
        match m.cementMeta with
        | none => none
        | some meta =>
          some ⟨meta.label, meta.func_name, meta.exposed, meta.hide,
                meta.arguments, meta.parser_options, some c.label⟩)

/-- Modelled from the words of the spec, for comparison with collectCommands:
    the reading of command collection in which catalog entries follow the
    declaration order of the members with no re-sorting. -/
def collectCommandsDeclOrder (c : Controller) : List ExposeMeta :=
  c.members.filterMap (fun m =>
    if startsWithUnderscore m.name then none
    else
      match m.cementMeta with
      | none => none
      | some meta =>
        some ⟨meta.label, meta.func_name, meta.exposed, meta.hide,
              meta.arguments, meta.parser_options, some c.label⟩)

/- ## Command parser options (_get_command_parser_options) -/

/-- Embeds ArgparseController._get_command_parser_options (lines 363-382):
    contr is the dereferenced controller back-reference of the command dict.
    The command is hidden when its own hide flag is set, or when its owning
    controller is embedded and itself hidden; hiding deletes the help key
    from the copied options. -/
def getCommandParserOptions (command : ExposeMeta) (contr : ControllerMeta) :
    OptDict :=
  let kwargs := command.parser_options
  let hideIt : Bool :=
    if command.hide then true
    else if contr.stacked_type = "embedded" ∧ contr.hide then true
    else false
  if hideIt then dictDel kwargs "help" else kwargs

/- ## Dispatch routing (_dispatch) -/

/-- The parsed namespace as far as routing consults it: whether the
    invocation-marker attribute was set (hasattr of the parsed args, true
    exactly when a command sub-parser matched and already invoked its bound
    function), and the value of the command field (None when no sub-command
    token was consumed). -/
structure ParsedArgs where
  hasControllerAttr : Bool
  command : Option String
deriving DecidableEq

/-- What the routing tail of _dispatch does: exactly one function invocation
    of the named default function on the named controller (instantiating the
    controller, binding it to the application via _setup and calling the
    function once), nothing when the command sub-parser already invoked, or a
    lookup failure when the command value names no registered controller. -/
inductive RouteAction
  | invokeDefault (label : String) (funcName : String) : RouteAction
  | alreadyInvoked : RouteAction
  | lookupFailed (label : String) : RouteAction
deriving DecidableEq

/-- Embeds the routing tail of ArgparseController._dispatch (lines 579-592),
    run after a successful parse: when the marker attribute is absent and the
    command field is None, call the configured default function of the base
    controller; when the command field holds a value, treat it as a
    controller label, fetch that controller from the handler registry,
    instantiate it, bind it to the application and call its configured
    default function; either way the function name passes through
    _clean_command_func first. -/
def dispatchRoute (base : ControllerMeta)
    (registered : List (String × ControllerMeta)) (pargs : ParsedArgs) :
    RouteAction :=
  if pargs.hasControllerAttr then RouteAction.alreadyInvoked
  else
    match pargs.command with
    | none =>
      RouteAction.invokeDefault base.label (cleanCommandFunc base.default_func)
    | some lbl =>
      match dictLookup registered lbl with
      | none => RouteAction.lookupFailed lbl
      | some contr =>
        RouteAction.invokeDefault lbl (cleanCommandFunc contr.default_func)

/- ## Concrete scenario data -/

/-- The base controller of the scenarios, carrying the source Meta defaults
    (label base, stacked_on base, stacked_type embedded, hide False,
    default_func default, lines 171-243).  The self-referential stacked_on
    value base is how the source spells the root sentinel that the spec
    writes as stacked_on none. -/
def baseMeta : ControllerMeta := ⟨"base", [], some "base", "embedded", false, "default"⟩

/-- A controller nested on base. -/
def midMeta : ControllerMeta := ⟨"mid", [], some "base", "nested", false, "default"⟩

/-- A controller embedded in mid. -/
def leafMeta : ControllerMeta := ⟨"leaf", [], some "mid", "embedded", false, "default"⟩

/-- A controller whose stacked_on names a label that no controller carries. -/
def orphanMeta : ControllerMeta :=
  ⟨"orphan", [], some "nonexistent", "nested", false, "default"⟩

/-- The parser state that assembling [base, mid, leaf] produces: one parser
    node was created, for mid only, and leaf aliases both entries of mid. -/
def c1ParserState : ParserState :=
  ⟨[("base", GroupRef.subparsersOn "base"), ("mid", GroupRef.subparsersOn "mid"),
    ("leaf", GroupRef.subparsersOn "mid")],
   [("base", ParserRef.appArgs), ("mid", ParserRef.subParser "mid"),
    ("leaf", ParserRef.subParser "mid")],
   ["mid"]⟩

/-- Subscriber returning A, registered at weight 99. -/
def subA : List String → String := fun _ => "A"

/-- Subscriber returning B, registered at weight -1. -/
def subB : List String → String := fun _ => "B"

/-- Subscriber returning C, registered last at the default weight 0. -/
def subC : List String → String := fun _ => "C"

/-- The subscriber of the never-defined hook name in test_run_bad_hook. -/
def subBogus : List String → String := fun _ => "kapla 3"

/-- The registry after defining cement_test_hook and nothing else. -/
def definedTestHooks : Hooks :=
  (hookDefine [] "cement_test_hook").toOption.getD []

/-- The registry of the ordering scenario: cement_test_hook defined, then A
    registered at weight 99, B at weight -1 and C last at the default 0. -/
def exampleHooks : Hooks :=
  hookRegister
    (hookRegister
      (hookRegister definedTestHooks "cement_test_hook" 99 "subA" subA)
      "cement_test_hook" (-1) "subB" subB)
    "cement_test_hook" 0 "subC" subC

/-- The subscriber list that the three registrations build, in registration
    order. -/
def exampleEntries : List HookEntry :=
  [⟨99, "subA", subA⟩, ⟨-1, "subB", subB⟩, ⟨0, "subC", subC⟩]

/-- The meta dict of an exposed function named zulu, decorated bare. -/
def metaZulu : ExposeMeta := exposeCall exposeDefaults "zulu"

/-- The meta dict of an exposed function named alpha, decorated bare. -/
def metaAlpha : ExposeMeta := exposeCall exposeDefaults "alpha"

/-- The class member holding the exposed function zulu. -/
def zuluMember : Member := ⟨"zulu", some metaZulu⟩

/-- The class member holding the exposed function alpha. -/
def alphaMember : Member := ⟨"alpha", some metaAlpha⟩

/-- A controller declaring zulu first and alpha second. -/
def zuluAlphaController : Controller := ⟨"base", [zuluMember, alphaMember]⟩

/-- The same controller with the two declarations swapped. -/
def alphaZuluController : Controller := ⟨"base", [alphaMember, zuluMember]⟩

/-- The meta dict of an exposed function named my_command, decorated bare. -/
def metaMyCommand : ExposeMeta := exposeCall exposeDefaults "my_command"

/-- A controller exposing the single function my_command. -/
def myCommandController : Controller :=
  ⟨"base", [⟨"my_command", some metaMyCommand⟩]⟩

/-- The command spec that collecting myCommandController produces. -/
def myCommandSpec : ExposeMeta :=
  ⟨"my-command", "my_command", true, false, [], [], some "base"⟩

/-- An embedded controller that is itself marked hidden. -/
def hiddenEmbeddedMeta : ControllerMeta :=
  ⟨"hidden", [], some "base", "embedded", true, "default"⟩

/-- A command that is not itself hidden and whose options carry a help
    entry. -/
def visibleCommand : ExposeMeta :=
  ⟨"my-command", "my_command", true, false, [],
   [("help", "do the thing")], some "hidden"⟩

/- ## General lemmas -/

theorem strLeAux_total : ∀ as bs : List Char, strLeAux as bs = true ∨ strLeAux bs as = true := by
  intro as
  induction as with
  | nil => intro bs; left; rfl
  | cons a as ih =>
    intro bs
    cases bs with
    | nil => right; rfl
    | cons b bs =>
      simp only [strLeAux]
      rcases lt_trichotomy a b with h | h | h
      · left; simp [h]
      · subst h; simpa [lt_irrefl] using ih bs
      · right; simp [h, not_lt_of_lt h]

theorem strLeAux_trans : ∀ as bs cs : List Char,
    strLeAux as bs = true → strLeAux bs cs = true → strLeAux as cs = true := by
  intro as
  induction as with
  | nil => intro bs cs _ _; rfl
  | cons a as ih =>
    intro bs cs h1 h2
    cases bs with
    | nil => simp [strLeAux] at h1
    | cons b bs =>
      cases cs with
      | nil => simp [strLeAux] at h2
      | cons c cs =>
        simp only [strLeAux] at h1 h2 ⊢
        rcases lt_trichotomy a b with hab | hab | hab
        · rcases lt_trichotomy b c with hbc | hbc | hbc
          · simp [lt_trans hab hbc]
          · subst hbc; simp [hab]
          · simp [hbc, not_lt_of_lt hbc] at h2
        · subst hab
          rcases lt_trichotomy a c with hac | hac | hac
          · simp [hac]
          · subst hac
            simp only [lt_irrefl, if_false] at h1 h2 ⊢
            exact ih bs cs h1 h2
          · simp [hac, not_lt_of_lt hac] at h2
        · simp [hab, not_lt_of_lt hab] at h1

theorem strLeAux_antisymm : ∀ as bs : List Char,
    strLeAux as bs = true → strLeAux bs as = true → as = bs := by
  intro as
  induction as with
  | nil =>
    intro bs h1 h2
    cases bs with
    | nil => rfl
    | cons b bs => simp [strLeAux] at h2
  | cons a as ih =>
    intro bs h1 h2
    cases bs with
    | nil => simp [strLeAux] at h1
    | cons b bs =>
      rcases lt_trichotomy a b with h | h | h
      · simp [strLeAux, h, not_lt_of_lt h] at h2
      · subst h
        simp only [strLeAux, lt_irrefl, if_false] at h1 h2
        rw [ih bs h1 h2]
      · simp [strLeAux, h, not_lt_of_lt h] at h1

instance : IsTotal String strLe := ⟨fun a b => strLeAux_total a.data b.data⟩

instance : IsTrans String strLe :=
  ⟨fun a b c h1 h2 => strLeAux_trans a.data b.data c.data h1 h2⟩

instance : IsAntisymm String strLe :=
  ⟨fun a b h1 h2 => congrArg String.mk (strLeAux_antisymm a.data b.data h1 h2)⟩

instance : IsTotal HookEntry wle := ⟨fun a b => Int.le_total a.weight b.weight⟩

instance : IsTrans HookEntry wle := ⟨fun _ _ _ hab hbc => le_trans hab hbc⟩

theorem filter_orderedInsert_weight_eq (w : Int) (a : HookEntry) (ha : a.weight = w) :
    ∀ l : List HookEntry,
      (List.orderedInsert wle a l).filter (fun e => e.weight == w) =
        a :: l.filter (fun e => e.weight == w) := by
  intro l
  induction l with
  | nil => simp [ha]
  | cons b l ih =>
    by_cases hb : wle a b
    · simp [List.orderedInsert, hb, List.filter_cons, ha]
    · have hbw : b.weight ≠ w := ha ▸ ne_of_lt (lt_of_not_le hb)
      simp only [List.orderedInsert, if_neg hb, List.filter_cons,
        beq_eq_false_iff_ne.mpr hbw, Bool.false_eq_true, if_false, ih]

theorem filter_orderedInsert_weight_ne (w : Int) (a : HookEntry) (ha : a.weight ≠ w) :
    ∀ l : List HookEntry,
      (List.orderedInsert wle a l).filter (fun e => e.weight == w) =
        l.filter (fun e => e.weight == w) := by
  intro l
  induction l with
  | nil => simp [ha]
  | cons b l ih =>
    by_cases hb : wle a b
    · simp [List.orderedInsert, hb, List.filter_cons, beq_eq_false_iff_ne.mpr ha]
    · simp only [List.orderedInsert, if_neg hb, List.filter_cons, ih]

theorem filter_sortEntries_weight (w : Int) : ∀ l : List HookEntry,
    (sortEntries l).filter (fun e => e.weight == w) =
      l.filter (fun e => e.weight == w) := by
  intro l
  induction l with
  | nil => rfl
  | cons a l ih =>
    show (List.orderedInsert wle a (sortEntries l)).filter (fun e => e.weight == w) = _
    by_cases ha : a.weight = w
    · rw [filter_orderedInsert_weight_eq w a ha, ih, List.filter_cons,
        if_pos (by simp [ha])]
    · rw [filter_orderedInsert_weight_ne w a ha, ih, List.filter_cons,
        if_neg (by simp [ha])]

theorem dictLookup_dictDel {α : Type} (d : List (String × α)) (k : String) :
    dictLookup (dictDel d k) k = none := by
  induction d with
  | nil => rfl
  | cons kv rest ih =>
    by_cases hk : kv.1 = k
    · simpa [dictDel, List.filter_cons, hk] using ih
    · simpa [dictDel, List.filter_cons, bne_iff_ne.mpr hk, dictLookup, hk] using ih

theorem find_name_cons (n : String) (x : Member) (l : List Member) :
    List.find? (fun m => m.name == n) (x :: l) =
      if x.name == n then some x else List.find? (fun m => m.name == n) l := by
  cases h : x.name == n <;> simp [List.find?_cons, h]

theorem find_member_perm {l₁ l₂ : List Member} (p : List.Perm l₁ l₂) (n : String) :
    (l₁.map Member.name).Nodup →
      l₁.find? (fun m => m.name == n) = l₂.find? (fun m => m.name == n) := by
  induction p with
  | nil => intro _; rfl
  | cons x p ih =>
    intro nd
    rw [List.map_cons, List.nodup_cons] at nd
    rw [find_name_cons, find_name_cons, ih nd.2]
  | swap x y l =>
    intro nd
    rw [List.map_cons, List.map_cons, List.nodup_cons, List.nodup_cons] at nd
    have hyx : y.name ≠ x.name := fun hh => nd.1 (by simp [hh])
    rw [find_name_cons, find_name_cons, find_name_cons, find_name_cons]
    cases hx : x.name == n with
    | true =>
      cases hy : y.name == n with
      | true => exact absurd ((eq_of_beq hy).trans (eq_of_beq hx).symm) hyx
      | false => simp
    | false =>
      cases hy : y.name == n with
      | true => simp
      | false => simp
  | trans p₁ p₂ ih₁ ih₂ =>
    intro nd
    exact (ih₁ nd).trans (ih₂ (((p₁.map Member.name).nodup_iff).mp nd))

theorem dirNames_perm_eq {c₁ c₂ : Controller}
    (hp : List.Perm c₁.members c₂.members) : dirNames c₁ = dirNames c₂ :=
  @List.eq_of_perm_of_sorted String strLe _ _ _
    ((List.perm_insertionSort strLe _).trans
      ((hp.map Member.name).trans (List.perm_insertionSort strLe _).symm))
    (List.sorted_insertionSort strLe _)
    (List.sorted_insertionSort strLe _)

/- ## Claims -/

/-- C10: for an identifier containing no hyphen, mapping underscores to
hyphens and then hyphens back to underscores is the identity, so the dispatch
side channel that rebuilds the function name from the parsed command label
recovers exactly the exposed identifier. -/
theorem clean_command_roundtrip (s : String) (h : ('-' : Char) ∉ s.data) :
    cleanCommandFunc (cleanCommandLabel s) = s := by
  have hdata : ∀ l : List Char, ('-' : Char) ∉ l →
      (l.map (fun c => if c = '_' then '-' else c)).map
        (fun c => if c = '-' then '_' else c) = l := by
    intro l hl
    induction l with
    | nil => rfl
    | cons c cs ih =>
      have hc : c ≠ '-' := fun hc => hl (hc ▸ List.mem_cons_self c cs)
      have hcs : ('-' : Char) ∉ cs := fun hm => hl (List.mem_cons_of_mem c hm)
      simp only [List.map_cons, ih hcs, List.cons.injEq, and_true]
      by_cases hu : c = '_'
      · subst hu; simp
      · simp [hu, hc]
  exact congrArg String.mk (hdata s.data h)

/-- Witness for C10 at the concrete identifier my_command. -/
theorem clean_command_roundtrip_witness :
    ('-' : Char) ∉ "my_command".data ∧
    cleanCommandFunc (cleanCommandLabel "my_command") = "my_command" :=
  ⟨by decide, clean_command_roundtrip "my_command" (by decide)⟩

/-- C7: defining an already-defined hook name always fails with the duplicate
hook name error whose message names that hook, and the existing subscriber
list of that name is left unchanged. -/
theorem hook_define_duplicate_error (hooks : Hooks) (name : String)
    (es : List HookEntry) (h : dictLookup hooks name = some es) :
    hookDefine hooks name =
      Except.error ("Hook name \x27" ++ name ++ "\x27 already defined!") ∧
    dictLookup hooks name = some es := by
  refine ⟨?_, h⟩
  simp [hookDefine, h]

/-- Witness for C7: defining cement_test_hook twice, as test_define_again
does. -/
theorem hook_define_duplicate_error_witness :
    hookDefine definedTestHooks "cement_test_hook" =
      Except.error ("Hook name \x27" ++ "cement_test_hook" ++ "\x27 already defined!") ∧
    dictLookup definedTestHooks "cement_test_hook" = some [] :=
  hook_define_duplicate_error definedTestHooks "cement_test_hook" [] rfl

/-- C3 counterexample: mirroring test_run_bad_hook, registering a subscriber
under the never-defined name some_bogus_hook and then running that name does
not succeed, refuting the claim that run succeeds for a name that was
registered to but never defined. -/
theorem hook_register_undefined_run_errors_cex :
    ¬ ∃ rs, hookRun
        (hookRegister [] "some_bogus_hook" (-99) "cement_hook_three" subBogus)
        "some_bogus_hook" [] = Except.ok rs := by
  rintro ⟨rs, hrs⟩
  simp [hookRegister, hookRun, dictLookup] at hrs

/-- C3 (amended): registering under a never-defined name does not fail but is
silently ignored, with no subscriber list created on demand, so the registry
is unchanged; run fails with a runtime error exactly on names that were never
defined, and succeeds, possibly with an empty yield, on every defined name. -/
theorem hook_register_undefined_semantics (hooks : Hooks) (name : String)
    (w : Int) (fn : String) (f : List String → String) (args : List String)
    (h : dictLookup hooks name = none) :
    hookRegister hooks name w fn f = hooks ∧
    (∃ msg, hookRun hooks name args = Except.error msg) ∧
    (∀ hooks2 : Hooks, ∀ es, dictLookup hooks2 name = some es →
      ∃ rs, hookRun hooks2 name args = Except.ok rs) := by
  refine ⟨?_, ?_, ?_⟩
  · simp [hookRegister, h]
  · exact ⟨"Hook name \x27" ++ name ++ "\x27 is not defined!", by simp [hookRun, h]⟩
  · intro hooks2 es hm
    exact ⟨(sortEntries es).map (fun e => e.func args), by simp [hookRun, hm]⟩

/-- Witness for C3 at the concrete scenario of test_run_bad_hook. -/
theorem hook_register_undefined_semantics_witness :
    hookRegister [] "some_bogus_hook" (-99) "cement_hook_three" subBogus = [] ∧
    (∃ msg, hookRun [] "some_bogus_hook" [] = Except.error msg) ∧
    (∀ hooks2 : Hooks, ∀ es, dictLookup hooks2 "some_bogus_hook" = some es →
      ∃ rs, hookRun hooks2 "some_bogus_hook" [] = Except.ok rs) :=
  hook_register_undefined_semantics [] "some_bogus_hook" (-99)
    "cement_hook_three" subBogus [] rfl

/-- C4: the claim says an orphaned stacked_on makes controller resolution
terminate with a configuration error; the code instead never terminates.
With base plus a controller stacked on a label that no controller carries,
the resolution loop of _setup_controllers makes no progress and raises
nothing, so no amount of fuel completes it: the source loop runs forever. -/
theorem orphan_resolution_never_terminates (fuel : Nat) :
    setupControllers fuel baseMeta [orphanMeta] = none := by
  have key : ∀ f : Nat, ∀ resolved : List ControllerMeta,
      resolveLoop f "orphan" resolved [orphanMeta] = none := by
    intro f
    induction f with
    | zero => intro resolved; rfl
    | succ f ih => intro resolved; exact ih ((resolved ++ []) ++ [])
  cases fuel with
  | zero => rfl
  | succ f => exact key f (([baseMeta] ++ []) ++ [])

/-- C5: the effective parser options of a command omit the help entry both
when the command itself is hidden and when its owning controller is embedded
and hidden, even though the command hide flag is false in the latter case. -/
theorem command_hide_help_omitted (command : ExposeMeta) (contr : ControllerMeta)
    (h : command.hide = true ∨
      (contr.stacked_type = "embedded" ∧ contr.hide = true)) :
    dictLookup (getCommandParserOptions command contr) "help" = none := by
  rcases h with hc | ⟨hs, hh⟩
  · simp [getCommandParserOptions, hc, dictLookup_dictDel]
  · by_cases hc : command.hide
    · simp [getCommandParserOptions, hc, dictLookup_dictDel]
    · simp [getCommandParserOptions, hc, hs, hh, dictLookup_dictDel]

/-- Witness for C5: a command with hide False and a help entry, owned by a
hidden embedded controller, loses its help entry. -/
theorem command_hide_help_omitted_witness :
    visibleCommand.hide = false ∧
    hiddenEmbeddedMeta.stacked_type = "embedded" ∧
    hiddenEmbeddedMeta.hide = true ∧
    dictLookup visibleCommand.parser_options "help" = some "do the thing" ∧
    dictLookup (getCommandParserOptions visibleCommand hiddenEmbeddedMeta) "help" = none :=
  ⟨rfl, rfl, rfl, rfl,
    command_hide_help_omitted visibleCommand hiddenEmbeddedMeta (Or.inr ⟨rfl, rfl⟩)⟩

/-- C6: when parsing succeeded but no command sub-parser matched, routing
invokes exactly one function: with an empty command field it is the cleaned
configured default function of the base controller, and with a command value
naming a registered controller it is the cleaned configured default function
of that freshly instantiated, application-bound controller. -/
theorem dispatch_routing_default_func (base : ControllerMeta)
    (registered : List (String × ControllerMeta)) (pargs : ParsedArgs)
    (h : pargs.hasControllerAttr = false) :
    (pargs.command = none →
      dispatchRoute base registered pargs =
        RouteAction.invokeDefault base.label
          (cleanCommandFunc base.default_func)) ∧
    (∀ lbl contr, pargs.command = some lbl →
      dictLookup registered lbl = some contr →
      dispatchRoute base registered pargs =
        RouteAction.invokeDefault lbl (cleanCommandFunc contr.default_func)) := by
  constructor
  · intro hc
    simp [dispatchRoute, h, hc]
  · intro lbl contr hc hl
    simp [dispatchRoute, h, hc, hl]

/-- Witness for C6 with the registry holding mid: the bare invocation routes
to the base default function and the command value mid routes to the default
function of mid. -/
theorem dispatch_routing_default_func_witness :
    dispatchRoute baseMeta [("mid", midMeta)] ⟨false, none⟩ =
      RouteAction.invokeDefault "base" "default" ∧
    dispatchRoute baseMeta [("mid", midMeta)] ⟨false, some "mid"⟩ =
      RouteAction.invokeDefault "mid" "default" :=
  ⟨(dispatch_routing_default_func baseMeta [("mid", midMeta)] ⟨false, none⟩ rfl).1 rfl,
   (dispatch_routing_default_func baseMeta [("mid", midMeta)] ⟨false, some "mid"⟩ rfl).2
     "mid" midMeta rfl rfl⟩

/-- C8: a bare expose decoration produces a command spec whose label is the
identifier with underscores mapped to hyphens, whose func_name is the
original identifier, with hide defaulting to False, arguments defaulting to
the empty sequence and parser_options defaulting to the empty dict; and every
command that collection returns carries the back-reference to the owning
controller. -/
theorem expose_command_spec_defaults (funcName : String) (c : Controller)
    (cmd : ExposeMeta) (hmem : cmd ∈ collectCommands c) :
    (exposeCall exposeDefaults funcName).label = cleanCommandLabel funcName ∧
    (exposeCall exposeDefaults funcName).func_name = funcName ∧
    (exposeCall exposeDefaults funcName).hide = false ∧
    (exposeCall exposeDefaults funcName).arguments = [] ∧
    (exposeCall exposeDefaults funcName).parser_options = [] ∧
    cmd.controller = some c.label := by
  refine ⟨rfl, rfl, rfl, rfl, rfl, ?_⟩
  rcases List.mem_filterMap.mp hmem with ⟨n, _, hf⟩
  split at hf
  · exact absurd hf (by simp)
  · split at hf
    · exact absurd hf (by simp)
    · split at hf
      · exact absurd hf (by simp)
      · injection hf with hcmd
        rw [← hcmd]

/-- Witness for C8 at the identifier my_command and the controller exposing
only it. -/
theorem expose_command_spec_defaults_witness :
    myCommandSpec ∈ collectCommands myCommandController ∧
    (exposeCall exposeDefaults "my_command").label = cleanCommandLabel "my_command" ∧
    (exposeCall exposeDefaults "my_command").func_name = "my_command" ∧
    (exposeCall exposeDefaults "my_command").hide = false ∧
    (exposeCall exposeDefaults "my_command").arguments = [] ∧
    (exposeCall exposeDefaults "my_command").parser_options = [] ∧
    myCommandSpec.controller = some myCommandController.label :=
  ⟨by decide,
   expose_command_spec_defaults "my_command" myCommandController myCommandSpec (by decide)⟩

/-- C2: run on a defined hook yields the return values of its subscribers in
ascending-weight order with ties kept in registration order: the produced
list maps the stored subscriber list through a sort that is a permutation of
it, sorted by weight, and that preserves, for every weight, the relative
order of the entries carrying that weight; every callable receives the same
arguments. -/
theorem hook_run_weight_order (hooks : Hooks) (name : String)
    (args : List String) (es : List HookEntry)
    (h : dictLookup hooks name = some es) :
    hookRun hooks name args =
      Except.ok ((sortEntries es).map (fun e => e.func args)) ∧
    List.Sorted wle (sortEntries es) ∧
    List.Perm (sortEntries es) es ∧
    ∀ w : Int, (sortEntries es).filter (fun e => e.weight == w) =
      es.filter (fun e => e.weight == w) :=
  ⟨by simp [hookRun, h], List.sorted_insertionSort wle es,
   List.perm_insertionSort wle es, fun w => filter_sortEntries_weight w es⟩

/-- Witness for C2 at the scenario of the claim: subscribers returning A at
weight 99, B at weight -1 and C registered last at the default weight 0;
run yields exactly B, C, A. -/
theorem hook_run_weight_order_witness :
    dictLookup exampleHooks "cement_test_hook" = some exampleEntries ∧
    (hookRun exampleHooks "cement_test_hook" [] =
       Except.ok ((sortEntries exampleEntries).map (fun e => e.func [])) ∧
     List.Sorted wle (sortEntries exampleEntries) ∧
     List.Perm (sortEntries exampleEntries) exampleEntries ∧
     ∀ w : Int, (sortEntries exampleEntries).filter (fun e => e.weight == w) =
       exampleEntries.filter (fun e => e.weight == w)) ∧
    hookRun exampleHooks "cement_test_hook" [] = Except.ok ["B", "C", "A"] :=
  ⟨rfl,
   hook_run_weight_order exampleHooks "cement_test_hook" [] exampleEntries rfl,
   rfl⟩

/-- C9 counterexample: for the controller declaring zulu before alpha, the
catalog that command collection produces does not follow the declaration
order of the exposed functions, because dir enumerates the class members
alphabetically. -/
theorem collect_commands_declaration_order_cex :
    collectCommands zuluAlphaController ≠
      collectCommandsDeclOrder zuluAlphaController := by decide

/-- C9 (amended): the catalog follows the dir enumeration of the class, which
sorts member names alphabetically, so it is stable and deterministic but
depends only on the set of declared members and not on their declaration
order: controllers with the same label whose member lists are permutations of
one another, with distinct member names, produce identical catalogs. -/
theorem collect_commands_name_determined (c₁ c₂ : Controller)
    (hp : List.Perm c₁.members c₂.members) (hl : c₁.label = c₂.label)
    (nd : (c₁.members.map Member.name).Nodup) :
    collectCommands c₁ = collectCommands c₂ := by
  unfold collectCommands
  rw [dirNames_perm_eq hp]
  congr 1
  funext n
  have hg : getMember c₁ n = getMember c₂ n := find_member_perm hp n nd
  rw [hg, hl]

/-- Witness for C9 at the two declaration orders of zulu and alpha. -/
theorem collect_commands_name_determined_witness :
    List.Perm zuluAlphaController.members alphaZuluController.members ∧
    (zuluAlphaController.members.map Member.name).Nodup ∧
    collectCommands zuluAlphaController = collectCommands alphaZuluController :=
  ⟨List.Perm.swap alphaMember zuluMember [], by decide,
   collect_commands_name_determined zuluAlphaController alphaZuluController
     (List.Perm.swap alphaMember zuluMember []) rfl (by decide)⟩

/-- C1: for the controller set base, mid nested on base and leaf embedded in
mid, either registration order of mid and leaf resolves to the controller
order base, mid, leaf, and parser assembly on that order gives leaf exactly
the parser object and the parent sub-parser namespace of mid: the only
parser node created is the one for mid, none is created for leaf. -/
theorem controller_resolution_base_mid_leaf (others : List ControllerMeta)
    (h : others = [midMeta, leafMeta] ∨ others = [leafMeta, midMeta]) :
    setupControllers 10 baseMeta others = some [baseMeta, midMeta, leafMeta] ∧
    setupParsers 10 [baseMeta, midMeta, leafMeta] = some c1ParserState ∧
    dictLookup c1ParserState.parsers "leaf" =
      dictLookup c1ParserState.parsers "mid" ∧
    dictLookup c1ParserState.parents "leaf" =
      dictLookup c1ParserState.parents "mid" ∧
    dictLookup c1ParserState.parsers "leaf" = some (ParserRef.subParser "mid") ∧
    dictLookup c1ParserState.parents "leaf" = some (GroupRef.subparsersOn "mid") ∧
    c1ParserState.created = ["mid"] := by
  rcases h with h | h <;> subst h <;>
    exact ⟨by decide, by decide, rfl, rfl, rfl, rfl, rfl⟩

/-- Witness for C1 at the registration order mid before leaf. -/
theorem controller_resolution_base_mid_leaf_witness :
    setupControllers 10 baseMeta [midMeta, leafMeta] =
      some [baseMeta, midMeta, leafMeta] ∧
    setupParsers 10 [baseMeta, midMeta, leafMeta] = some c1ParserState ∧
    dictLookup c1ParserState.parsers "leaf" =
      dictLookup c1ParserState.parsers "mid" ∧
    dictLookup c1ParserState.parents "leaf" =
      dictLookup c1ParserState.parents "mid" ∧
    dictLookup c1ParserState.parsers "leaf" = some (ParserRef.subParser "mid") ∧
    dictLookup c1ParserState.parents "leaf" = some (GroupRef.subparsersOn "mid") ∧
    c1ParserState.created = ["mid"] :=
  controller_resolution_base_mid_leaf [midMeta, leafMeta] (Or.inl rfl)

end Cement
